import Mathlib

/-!
Verification development for the three operational scripts of this
repository (`scripts/manage-secrets.py`, `scripts/test-cloudflare-token.py`,
`scripts/extract-pr-comments.py`).

The scripts are shallowly embedded: Python strings are lists of characters
(`Str`), Python dicts are insertion-ordered association lists, and every
external effect (subprocess invocation, HTTP request, file write) is a
parameter describing the outcome the outside world produces.  Printing is
presentation-only in the scripts and is not modelled; the embedded
functions return exactly the data that drives control flow, counters and
exit codes.
-/

/-- Python strings, modelled as lists of characters (code points). -/
abbrev Str := List Char

/-- The whitespace characters removed by Python `str.strip()`. -/
def isPySpace (c : Char) : Bool :=
  c = ' ' || c = '\t' || c = '\n' || c = '\r' || c = '\x0b' || c = '\x0c'

/-- Python `str.strip(chars)`: remove all leading and trailing characters
satisfying `p`. -/
def stripChars (p : Char → Bool) (s : Str) : Str :=
  ((s.dropWhile p).reverse.dropWhile p).reverse

/-- Python `s.strip()` (no argument: strip whitespace). -/
def pyStrip (s : Str) : Str := stripChars isPySpace s

/-- Python `s.strip(q)` for a one-character argument `q`. -/
def stripQuote (q : Char) (s : Str) : Str := stripChars (· = q) s

/-- Python `s.split(c, 1)` restricted to the case the scripts use: returns
the parts before and after the first occurrence of `c`, or `none` when `c`
does not occur (the scripts guard the split with `c in s`). -/
def splitFirst (c : Char) : Str → Option (Str × Str)
  | [] => none
  | x :: xs =>
    if x = c then some ([], xs)
    else
      match splitFirst c xs with
      | some (a, b) => some (x :: a, b)
      | none => none

/-- Python `s.split(c)` for a one-character separator. -/
def splitChar (c : Char) : Str → List Str
  | [] => [[]]
  | x :: xs =>
    match splitChar c xs with
    | [] => [[]]
    | r :: rs => if x = c then [] :: r :: rs else (x :: r) :: rs

/-- Python dict assignment `d[k] = v` on an insertion-ordered association
list: an existing key keeps its position and receives the new value, a new
key is appended at the end. -/
def updateLast (m : List (Str × Str)) (k v : Str) : List (Str × Str) :=
  if m.any (fun p => decide (p.1 = k)) then
    m.map (fun p => if p.1 = k then (k, v) else p)
  else m ++ [(k, v)]

/-- Python `d.get(k)` on the association-list model of a dict (keys are
unique in the lists built by `updateLast`, so first match is the match). -/
def lookupStr : List (Str × Str) → Str → Option Str
  | [], _ => none
  | p :: rest, k => if p.1 = k then some p.2 else lookupStr rest k

/-! Embedding of `scripts/manage-secrets.py`. -/

/-- One iteration of the loop in `SecretsManager.load_secrets`: the
`(key, value)` pair the iteration stores into `self.secrets`, if any.
Blank lines, `#`-comments, lines without `=`, and lines whose key or value
is empty after `strip()`/quote-stripping are skipped. -/
def parseLine (rawLine : Str) : Option (Str × Str) :=
  let line := pyStrip rawLine
  if line = [] ∨ line.head? = some '#' then none
  else
    match splitFirst '=' line with
    | none => none
    | some (k0, v0) =>
      let key := pyStrip k0
      let value := stripQuote '\'' (stripQuote '"' (pyStrip v0))
      if key ≠ [] ∧ value ≠ [] then some (key, value) else none

/-- Model of `SecretsManager.load_secrets`: the `self.secrets` dict after reading
the given lines of the `.dev.vars` file (dict assignment per parsed line,
in file order). -/
def loadSecrets (lines : List Str) : List (Str × Str) :=
  (lines.filterMap parseLine).foldl (fun m p => updateLast m p.1 p.2) []

/-- The masking applied by `SecretsManager.list_secrets`:
`value[:10] + "..." + value[-10:]` when `len(value) > 20`, otherwise
`"*" * len(value)`. -/
def maskValue (v : Str) : Str :=
  if 20 < v.length then v.take 10 ++ ['.', '.', '.'] ++ v.drop (v.length - 10)
  else List.replicate v.length '*'

/-- The order in which `SecretsManager.list_secrets` displays the keys:
Python `sorted(self.secrets.keys())`, ascending lexicographic order on
code points. -/
def listedKeys (m : List (Str × Str)) : List Str :=
  List.insertionSort (· ≤ ·) (m.map Prod.fst)

/-- Outcome of the one `subprocess.run` invocation performed by
`SecretsManager.upload_secret` for a `(key, environment)` pair: normal
completion with exit code and captured output, `subprocess.TimeoutExpired`,
or any other exception. -/
inductive CliOutcome where
  | completed (exitCode : Nat) (stdout : Str) (stderr : Str)
  | timedOut
  | raised

/-- The marker `b"Success"` that `upload_secret` looks for in the captured
standard output. -/
def successMarker : Str := "Success".toList

/-- Model of `SecretsManager.upload_secret` as a function of the CLI outcome:
`true` iff the subprocess completed with exit status zero and `b"Success"`
occurs in its captured stdout; a timeout or any other exception yields
`false` (each such branch prints an error and returns `False`). -/
def uploadSecret (o : CliOutcome) : Bool :=
  match o with
  | .completed code out _ => (code == 0) && decide (successMarker <:+: out)
  | .timedOut => false
  | .raised => false

/-- Selection rule `keys_to_sync = keys if keys else list(self.secrets.keys())` in
`sync_to_environment` (Python truthiness: both `None` and an empty list
fall back to all loaded keys). -/
def keysToSync (m : List (Str × Str)) (keys? : Option (List Str)) : List Str :=
  match keys? with
  | some (k :: ks) => k :: ks
  | _ => m.map Prod.fst

/-- Model of `SecretsManager.sync_to_environment`: walk the selected keys in order;
a key absent from the loaded secrets is skipped with a warning (neither
counter moves); otherwise one upload is attempted and exactly one of the
two counters is incremented.  `cli` gives the CLI outcome per key for the
fixed target environment.  Returns `(success_count, fail_count)`. -/
def syncToEnvironment (m : List (Str × Str)) (keys? : Option (List Str))
    (cli : Str → CliOutcome) : Nat × Nat :=
  (keysToSync m keys?).foldl
    (fun acc k =>
      match lookupStr m k with
      | none => acc
      | some _ => if uploadSecret (cli k) then (acc.1 + 1, acc.2) else (acc.1, acc.2 + 1))
    (0, 0)

/-- Model of `SecretsManager.sync_all_environments`: sum the per-environment
`(success, fail)` pairs over the environment list; the boolean the source
returns is `total_fail == 0`, recoverable from the second component. -/
def syncAllEnvironments (m : List (Str × Str)) (envs : List Str)
    (keys? : Option (List Str)) (cli : Str → Str → CliOutcome) : Nat × Nat :=
  envs.foldl
    (fun acc e =>
      let r := syncToEnvironment m keys? (cli e)
      (acc.1 + r.1, acc.2 + r.2))
    (0, 0)

/-- Exit status of `main` in `manage-secrets.py`, given the lines of an
existing `.dev.vars` file (the missing-file case exits 1 before reaching
this logic), the `--list`/`--all` flags, the `--env` and `--keys`
arguments, and the CLI outcomes (environment → key → outcome).  Mirrors:
exit 1 when nothing loads, exit 0 after `--list`, `--all` selects
`['default', 'production']`, a missing/empty `--env` is an error, and the
final status is 0 iff the grand failure total is zero. -/
def manageSecretsMain (lines : List Str) (listFlag allFlag : Bool)
    (envArgs keysArgs : Option (List Str)) (cli : Str → Str → CliOutcome) : Nat :=
  let m := loadSecrets lines
  if m = [] then 1
  else if listFlag then 0
  else
    let envs : Option (List Str) :=
      if allFlag then some ["default".toList, "production".toList]
      else
        match envArgs with
        | some (e :: es) => some (e :: es)
        | _ => none
    match envs with
    | none => 1
    | some es => if (syncAllEnvironments m es keysArgs cli).2 = 0 then 0 else 1

/-! Embedding of `scripts/test-cloudflare-token.py`. -/

/-- A Cloudflare JSON envelope as consumed by the probes: the boolean
`success` flag, the `errors` list of `(code, message)` objects, and the
`result` payload.  The probes use `result` only as a list whose length
and entry names drive the recorded message; modelling the entries by
their display names is enough for every classification the script makes
(probe 1 reads display-only fields of a `result` object, which do not
affect pass/fail). -/
structure Envelope where
  success : Bool
  errors : List (Nat × Str)
  result : List Str

/-- Outcome of the one HTTP GET a probe performs: a response with status
code and parsed body, `requests.exceptions.Timeout`, another
`requests.exceptions.RequestException`, or a body that fails JSON
decoding. -/
inductive HttpOutcome where
  | response (status : Nat) (env : Envelope)
  | timedOut
  | transportError
  | invalidJson

/-- The `{}` returned as `data` on the exception branches of
`make_request`: a dict whose `get('success')` is falsy and whose
`get('result', [])` and `get('errors', [])` are empty. -/
def emptyEnvelope : Envelope := ⟨false, [], []⟩

/-- Model of `CloudflareTokenTester.make_request`: `(True, data)` iff the status
code is 200 and the envelope's success flag is true, `(False, data)`
otherwise; every exception (timeout, transport error, JSON decode error)
is caught and yields `(False, {})`.  The colored message string is
presentation-only and omitted. -/
def makeRequest (o : HttpOutcome) : Bool × Envelope :=
  match o with
  | .response st env => if st = 200 ∧ env.success = true then (true, env) else (false, env)
  | _ => (false, emptyEnvelope)

/-- Recorded result of Test 1 (`test_token_verification`): pass iff
`make_request` succeeded (the token id / status / expiry shown on success
are display-only). -/
def testTokenVerification (o : HttpOutcome) : Bool := (makeRequest o).1

/-- Recorded result of Test 2 (`test_account_access`): on a successful
request the probe is recorded as a pass only when at least one account is
returned; a successful response with zero accounts records
`("List Accounts", False, "No accounts accessible")`. -/
def testAccountAccess (o : HttpOutcome) : Bool :=
  match makeRequest o with
  | (true, env) => decide (0 < env.result.length)
  | (false, _) => false

/-- Recorded result of Test 3 (`test_workers_list`): pass iff the request
succeeded; an empty script list still records a pass
(`"No Workers scripts found (but access granted)"`). -/
def testWorkersList (o : HttpOutcome) : Bool := (makeRequest o).1

/-- Recorded result of Test 4 (`test_d1_databases`): pass iff the request
succeeded, also on an empty database list. -/
def testD1Databases (o : HttpOutcome) : Bool := (makeRequest o).1

/-- Recorded result of Test 5 (`test_kv_namespaces`): pass iff the request
succeeded, also on an empty namespace list. -/
def testKvNamespaces (o : HttpOutcome) : Bool := (makeRequest o).1

/-- Recorded result of Test 6 (`test_ai_models`): pass iff the request
succeeded, also on an empty model list. -/
def testAiModels (o : HttpOutcome) : Bool := (makeRequest o).1

/-- Recorded result of Test 7 (`test_api_tokens_list`): pass iff the
request succeeded, also on an empty token list.  The endpoint differs per
token kind (account-scoped vs user-scoped path); which endpoint the fixed
backend answers is carried by the backend assignment below. -/
def testApiTokensList (o : HttpOutcome) : Bool := (makeRequest o).1

/-- The seven probe slots of the battery, in source order. -/
inductive Probe where
  | verification
  | accounts
  | workers
  | d1
  | kv
  | ai
  | tokens

/-- Position of each probe in the recorded results list. -/
def probeIdx : Probe → Nat
  | .verification => 0
  | .accounts => 1
  | .workers => 2
  | .d1 => 3
  | .kv => 4
  | .ai => 5
  | .tokens => 6

/-- The classification each probe records for a given HTTP outcome. -/
def probeClassify : Probe → HttpOutcome → Bool
  | .verification, o => testTokenVerification o
  | .accounts, o => testAccountAccess o
  | .workers, o => testWorkersList o
  | .d1, o => testD1Databases o
  | .kv, o => testKvNamespaces o
  | .ai, o => testAiModels o
  | .tokens, o => testApiTokensList o

/-- Model of `CloudflareTokenTester.run_all_tests` on a fresh tester: the seven
probes run unconditionally in their fixed source order, and the recorded
`self.results` pass/fail flags are collected in that order.  The backend
assignment gives the HTTP outcome each probe's single GET receives. -/
def runAllTests (backend : Probe → HttpOutcome) : List Bool :=
  [testTokenVerification (backend .verification),
   testAccountAccess (backend .accounts),
   testWorkersList (backend .workers),
   testD1Databases (backend .d1),
   testKvNamespaces (backend .kv),
   testAiModels (backend .ai),
   testApiTokensList (backend .tokens)]

/-- Error outcomes for a single probe: timeout, transport error,
malformed JSON body, non-200 status, or a false success flag. -/
def isErrorOutcome : HttpOutcome → Prop
  | .response st env => st ≠ 200 ∨ env.success = false
  | _ => True

/-- Model of `load_env_vars` in `test-cloudflare-token.py`.  Unlike
`SecretsManager.load_secrets` there is no emptiness check on key or
value, the key is not stripped separately, and only quote characters are
stripped from the value. -/
def loadEnvVars (lines : List Str) : List (Str × Str) :=
  lines.foldl
    (fun m rawLine =>
      let line := pyStrip rawLine
      if line ≠ [] ∧ line.head? ≠ some '#' then
        match splitFirst '=' line with
        | some (k, v0) => updateLast m k (stripQuote '\'' (stripQuote '"' v0))
        | none => m
      else m)
    []

/-- Response of the heal endpoint to the single authorized POST of
`trigger_self_heal`: status and success flag, a timeout, or another
exception.  The `auto_heal_results` payload is display-only. -/
inductive HealHttp where
  | response (status : Nat) (success : Bool)
  | timedOut
  | raised

/-- Model of `trigger_self_heal` as a function of the heal endpoint's response:
`true` iff HTTP 200 with a true success flag; a timeout or any other
exception prints a diagnostic and yields `false`. -/
def triggerSelfHeal (h : HealHttp) : Bool :=
  match h with
  | .response st s => (st == 200) && s
  | _ => false

/-- Python truthiness of an `env_vars.get(...)` result: `None` and the
empty string are falsy. -/
def pyTruthy : Option Str → Bool
  | none => false
  | some s => !s.isEmpty

/-- Python `a or b` on two `env_vars.get(...)` results. -/
def pyOr (a b : Option Str) : Option Str := if pyTruthy a then a else b

/-- Lookup `env_vars.get('CLOUDFLARE_ACCOUNT_ID')` in `main`. -/
def accountIdOf (env : List (Str × Str)) : Option Str :=
  lookupStr env "CLOUDFLARE_ACCOUNT_ID".toList

/-- Lookup `env_vars.get('WORKER_URL') or env_vars.get('BASE_URL')` in `main`. -/
def workerUrlOf (env : List (Str × Str)) : Option Str :=
  pyOr (lookupStr env "WORKER_URL".toList) (lookupStr env "BASE_URL".toList)

/-- Lookup `env_vars.get('CLIENT_AUTH_TOKEN')` in `main`. -/
def clientAuthOf (env : List (Str × Str)) : Option Str :=
  lookupStr env "CLIENT_AUTH_TOKEN".toList

/-- Lookup `env_vars.get('CLOUDFLARE_ACCOUNT_TOKEN')` in `main`. -/
def accountTokenOf (env : List (Str × Str)) : Option Str :=
  lookupStr env "CLOUDFLARE_ACCOUNT_TOKEN".toList

/-- Lookup `env_vars.get('CLOUDFLARE_USER_TOKEN')` in `main`. -/
def userTokenOf (env : List (Str × Str)) : Option Str :=
  lookupStr env "CLOUDFLARE_USER_TOKEN".toList

/-- The outside world as seen by one run of `main` in
`test-cloudflare-token.py`: a backend assignment per credential for the
INITIAL batteries, the heal endpoint's response, and backend assignments
per credential for the RETEST batteries. -/
structure TokenWorld where
  initAccount : Probe → HttpOutcome
  initUser : Probe → HttpOutcome
  heal : HealHttp
  retestAccount : Probe → HttpOutcome
  retestUser : Probe → HttpOutcome

/-- Recorded results of the INITIAL account-token battery (empty when the
account token is absent or falsy: the battery is skipped entirely). -/
def initAccResults (env : List (Str × Str)) (w : TokenWorld) : List Bool :=
  if pyTruthy (accountTokenOf env) then runAllTests w.initAccount else []

/-- Recorded results of the INITIAL user-token battery (empty when the
user token is absent or falsy). -/
def initUserResults (env : List (Str × Str)) (w : TokenWorld) : List Bool :=
  if pyTruthy (userTokenOf env) then runAllTests w.initUser else []

/-- Counter `initial_total_failed` after the INITIAL phase. -/
def initialFailedOf (env : List (Str × Str)) (w : TokenWorld) : Nat :=
  (initAccResults env w).count false + (initUserResults env w).count false

/-- The `needs_healing` flag after the INITIAL phase: set when either
battery that ran recorded a positive failure count. -/
def needsHealingOf (env : List (Str × Str)) (w : TokenWorld) : Bool :=
  decide (0 < (initAccResults env w).count false)
    || decide (0 < (initUserResults env w).count false)

/-- Recorded results of the RETEST account-token battery. -/
def retestAccResults (env : List (Str × Str)) (w : TokenWorld) : List Bool :=
  if pyTruthy (accountTokenOf env) then runAllTests w.retestAccount else []

/-- Recorded results of the RETEST user-token battery. -/
def retestUserResults (env : List (Str × Str)) (w : TokenWorld) : List Bool :=
  if pyTruthy (userTokenOf env) then runAllTests w.retestUser else []

/-- Counter `retest_total_failed` after the RETEST phase. -/
def retestFailedOf (env : List (Str × Str)) (w : TokenWorld) : Nat :=
  (retestAccResults env w).count false + (retestUserResults env w).count false

/-- Model of `main` of `test-cloudflare-token.py`: process exit status and whether
a heal POST was issued, as a function of the loaded `.dev.vars` mapping
and the world.  Mirrors the source: exit 1 when the account id is falsy
or both tokens are falsy; run the INITIAL batteries for the credentials
present; when failures exist, a missing worker URL or missing client auth
token aborts with `sys.exit(1 if initial_total_failed > 0 else 0)` before
any POST; a successful heal runs the RETEST batteries and exits
`0 if retest_total_failed == 0 else 1`; a failed heal exits 1; with no
failures the process exits 0 with no POST. -/
def mainTokenTester (env : List (Str × Str)) (w : TokenWorld) : Nat × Bool :=
  if pyTruthy (accountIdOf env) = false then (1, false)
  else if pyTruthy (accountTokenOf env) = false ∧ pyTruthy (userTokenOf env) = false then
    (1, false)
  else if needsHealingOf env w = true ∧ 0 < initialFailedOf env w then
    if pyTruthy (workerUrlOf env) = false then
      (if 0 < initialFailedOf env w then 1 else 0, false)
    else if pyTruthy (clientAuthOf env) = false then
      (if 0 < initialFailedOf env w then 1 else 0, false)
    else if triggerSelfHeal w.heal = true then
      (if retestFailedOf env w = 0 then 0 else 1, true)
    else (1, true)
  else (0, false)

/-! Embedding of `scripts/extract-pr-comments.py`. -/

/-- Python `p.isPrefixOf`-style test, `s.startswith(p)`. -/
def strStartsWith (p s : Str) : Bool := p.isPrefixOf s

/-- Python `s.endswith(p)`. -/
def strEndsWith (p s : Str) : Bool := p.reverse.isPrefixOf s.reverse

/-- Python `sub in s` (substring containment). -/
def containsSub (sub s : Str) : Bool := decide (sub <:+: s)

/-- Split at the first occurrence of a (nonempty) separator substring:
the parts strictly before and strictly after the first occurrence, or
`none` when the separator does not occur. -/
def splitOnFirst (sep : Str) : Str → Option (Str × Str)
  | [] => none
  | x :: xs =>
    if sep.isPrefixOf (x :: xs) then some ([], (x :: xs).drop sep.length)
    else
      match splitOnFirst sep xs with
      | some (a, b) => some (x :: a, b)
      | none => none

/-- Python `s.split(sep)[1]`: the segment after the first occurrence of
`sep`, up to its second occurrence or the end; `none` when `sep` does not
occur (the `IndexError` the script catches). -/
def pyIndex1 (sep s : Str) : Option Str :=
  match splitOnFirst sep s with
  | none => none
  | some (_, rest) =>
    match splitOnFirst sep rest with
    | none => some rest
    | some (a, _) => some a

/-- One element of the parsed `gh pr list` JSON output (number, title,
head branch name; the branch name is unused by the script). -/
structure PrRec where
  number : Nat
  title : Str
  headRefName : Str

/-- The PR descriptor `get_open_pr` returns. -/
structure PrInfo where
  number : Nat
  title : Str
  repo : Str

/-- Model of `get_open_pr` in `extract-pr-comments.py`, as a function of the
origin remote URL reported by `git config` (`none`: command failure; the
empty string is also treated as a failure by the `if not remote_url`
truthiness test) and of the parsed `gh pr list` output (`none` collapses
command failure, empty output and unparsable JSON, which all reach
`return None` through the falsy test or the `except` handler).  Mirrors
the source: `github.com` containment test, HTTPS vs SCP-style split with
`split(...)[1]`, `.git` suffix strip, exactly-two-part `owner/repo`
split (a `ValueError` is caught), and selection of the first listed PR. -/
def getOpenPr (remoteUrl : Option Str) (prList : Option (List PrRec)) : Option PrInfo :=
  match remoteUrl with
  | none => none
  | some url =>
    if url = [] then none
    else if containsSub "github.com".toList url then
      match
        (if strStartsWith "https://".toList url then pyIndex1 "github.com/".toList url
         else pyIndex1 "github.com:".toList url) with
      | none => none
      | some rp0 =>
        let repoPart :=
          if strEndsWith ".git".toList rp0 then rp0.take (rp0.length - 4) else rp0
        match splitChar '/' repoPart with
        | [owner, repo] =>
          (match prList with
           | none => none
           | some [] => none
           | some (pr :: _) => some ⟨pr.number, pr.title, owner ++ '/' :: repo⟩)
        | _ => none
    else none

/-- Model of `extract_pr_comments`, as a function of the `run_gh_command` result
for the paginated `gh api .../comments` call (`none` on a non-zero exit
of the CLI; otherwise the stripped stdout, each line already projected to
`path:line - body` by the `--jq` filter).  A failed fetch propagates
`none`; an empty output yields the empty comment list. -/
def extractPrComments (commentsOut : Option Str) : Option (List Str) :=
  match commentsOut with
  | none => none
  | some out =>
    let s := pyStrip out
    some (if s = [] then [] else splitChar '\n' s)

/-- Decimal rendering of a PR number. -/
def natToStr (n : Nat) : Str := (Nat.repr n).toList

/-- Model of `save_comments_to_file`: the report file name
`pr_{number}_comments.txt` and its full contents — header (PR line,
repository line, 50 `=` characters, blank line), then either each comment
followed by a blank line or the sentinel `No comments found.` line. -/
def saveCommentsToFile (comments : List Str) (pr : PrInfo) : Str × Str :=
  ("pr_".toList ++ natToStr pr.number ++ "_comments.txt".toList,
   "PR #".toList ++ natToStr pr.number ++ ": ".toList ++ pr.title ++ ['\n']
     ++ "Repository: ".toList ++ pr.repo ++ ['\n']
     ++ List.replicate 50 '=' ++ ['\n'] ++ ['\n']
     ++ (if comments = [] then "No comments found.".toList ++ ['\n']
         else (comments.map (fun c => c ++ ['\n', '\n'])).flatten))

/-- The outside world as seen by one run of `extract-pr-comments.py`:
the `run_gh_command` results for the four commands the script issues, the
parsed PR list, and whether the report-file write succeeds (an exception
while writing is caught and leads to exit 1). -/
structure GhWorld where
  ghVersion : Option Str
  remoteUrl : Option Str
  prList : Option (List PrRec)
  commentsOut : Option Str
  saveOk : Bool

/-- Model of `main` of `extract-pr-comments.py`: the process exit status and the
report file written (`none` when no report file is created).  The stages
run in source order — `gh --version` availability check (with Python
truthiness on the output), PR discovery, comment extraction, save — and
each failing stage exits 1 before any later stage runs; in particular the
file is created only in `save_comments_to_file`, after the full comment
list has been retrieved. -/
def mainExtract (w : GhWorld) : Nat × Option (Str × Str) :=
  match w.ghVersion with
  | none => (1, none)
  | some v =>
    if v = [] then (1, none)
    else
      match getOpenPr w.remoteUrl w.prList with
      | none => (1, none)
      | some pr =>
        match extractPrComments w.commentsOut with
        | none => (1, none)
        | some comments =>
          if w.saveOk then (0, some (saveCommentsToFile comments pr))
          else (1, none)

/-! Helper lemmas on the dict model. -/

/-- Membership after a dict assignment: the new pair, or a pair that was
already present. -/
theorem mem_updateLast {m : List (Str × Str)} {k v : Str} {p : Str × Str}
    (h : p ∈ updateLast m k v) : p = (k, v) ∨ p ∈ m := by
  unfold updateLast at h
  split at h
  · rcases List.mem_map.1 h with ⟨q, hq, hfq⟩
    by_cases hk : q.1 = k
    · left; rw [← hfq]; simp [hk]
    · right; rw [← hfq]; simpa [hk] using hq
  · rcases List.mem_append.1 h with h | h
    · right; exact h
    · left; simpa using h

/-- Folding dict assignments preserves a property satisfied by the seed
entries and by every assigned pair. -/
theorem foldl_updateLast_inv (Q : Str × Str → Prop) (ps m : List (Str × Str))
    (hm : ∀ p ∈ m, Q p) (hps : ∀ p ∈ ps, Q p) :
    ∀ p ∈ ps.foldl (fun m q => updateLast m q.1 q.2) m, Q p := by
  induction ps generalizing m with
  | nil => simpa using hm
  | cons q ps ih =>
    intro p hp
    refine ih (updateLast m q.1 q.2) ?_ (fun r hr => hps r (List.mem_cons_of_mem _ hr)) p hp
    intro r hr
    rcases mem_updateLast hr with h | h
    · have := hps q (List.mem_cons_self _ _)
      rwa [h]
    · exact hm r h

/-- A parsed `.dev.vars` line has a nonempty key and a nonempty value. -/
theorem parseLine_nonempty {l k v : Str} (h : parseLine l = some (k, v)) :
    k ≠ [] ∧ v ≠ [] := by
  simp only [parseLine] at h
  split at h
  · exact absurd h (by simp)
  · split at h
    · exact absurd h (by simp)
    · split at h
      · rename_i hne
        obtain ⟨hk, hv⟩ := Prod.mk.inj (Option.some.inj h)
        exact ⟨hk ▸ hne.1, hv ▸ hne.2⟩
      · exact absurd h (by simp)

/-- C2 (amended): for every secrets file, the mapping loaded by
`SecretsManager.load_secrets` contains no entry whose key or value is
empty — empty keys and empty values are dropped by the `if key and value`
check.  The token tester's `load_env_vars` performs no such check and can
retain empty-valued entries (see the counterexample). -/
theorem loadSecrets_no_empty_entries (lines : List Str) (k v : Str)
    (h : (k, v) ∈ loadSecrets lines) : k ≠ [] ∧ v ≠ [] := by
  have := foldl_updateLast_inv (fun p => p.1 ≠ [] ∧ p.2 ≠ [])
    (lines.filterMap parseLine) [] (by simp) ?_ (k, v) h
  · exact this
  · intro p hp
    rcases List.mem_filterMap.1 hp with ⟨l, _, hl⟩
    have := parseLine_nonempty (l := l) (k := p.1) (v := p.2) (by simpa using hl)
    exact this

/-- Witness for C2's amended theorem at a concrete file. -/
theorem loadSecrets_no_empty_entries_witness :
    ("A".toList, "b".toList) ∈ loadSecrets ["A=b".toList]
      ∧ "A".toList ≠ [] ∧ "b".toList ≠ [] :=
  ⟨by decide, loadSecrets_no_empty_entries ["A=b".toList] _ _ (by decide)⟩

/-- C2 counterexample: `load_env_vars` of `test-cloudflare-token.py`
stores the entry `KEY → ""` for the line `KEY=`, so its loaded mapping
can contain an empty value, contradicting the claim for that loader. -/
theorem loadEnvVars_keeps_empty_value :
    loadEnvVars ["KEY=".toList] = [("KEY".toList, [])] := by decide

/-- Overwriting an existing key in place does not change lookups of other
keys. -/
theorem lookupStr_map_overwrite (m : List (Str × Str)) (a v k : Str) (hak : a ≠ k) :
    lookupStr (m.map (fun p => if p.1 = a then (a, v) else p)) k = lookupStr m k := by
  induction m with
  | nil => rfl
  | cons q m ih =>
    by_cases hq : q.1 = a
    · simp [lookupStr, hq, hak, ih]
    · simp [lookupStr, hq, ih]

/-- Lookup in a concatenation tries the left part first. -/
theorem lookupStr_append (m₁ m₂ : List (Str × Str)) (k : Str) :
    lookupStr (m₁ ++ m₂) k
      = match lookupStr m₁ k with
        | some w => some w
        | none => lookupStr m₂ k := by
  induction m₁ with
  | nil => simp [lookupStr]
  | cons q m ih =>
    by_cases hq : q.1 = k
    · simp [lookupStr, hq]
    · simp [lookupStr, hq, ih]

/-- A key matching no entry looks up to `none`. -/
theorem lookupStr_eq_none_of_any_false (m : List (Str × Str)) (k : Str)
    (h : m.any (fun p => decide (p.1 = k)) = false) : lookupStr m k = none := by
  induction m with
  | nil => rfl
  | cons q m ih =>
    simp only [List.any_cons, Bool.or_eq_false_iff, decide_eq_false_iff_not] at h
    simp [lookupStr, h.1, ih h.2]

/-- Dict assignment: looking up the assigned key yields the new value. -/
theorem lookupStr_updateLast_self (m : List (Str × Str)) (a v : Str) :
    lookupStr (updateLast m a v) a = some v := by
  unfold updateLast
  split
  · rename_i h
    induction m with
    | nil => simp at h
    | cons q m ih =>
      by_cases hq : q.1 = a
      · simp [lookupStr, hq]
      · simp only [List.any_cons, Bool.or_eq_true, decide_eq_true_eq] at h
        rcases h with h | h
        · exact absurd h hq
        · simpa [lookupStr, hq] using ih (by simpa using h)
  · rename_i h
    rw [lookupStr_append]
    rw [lookupStr_eq_none_of_any_false m a (by rwa [Bool.not_eq_true] at h)]
    simp [lookupStr]

/-- Dict assignment: looking up a different key is unchanged. -/
theorem lookupStr_updateLast_ne (m : List (Str × Str)) (a v k : Str) (hak : a ≠ k) :
    lookupStr (updateLast m a v) k = lookupStr m k := by
  unfold updateLast
  split
  · exact lookupStr_map_overwrite m a v k hak
  · rw [lookupStr_append]
    cases hm : lookupStr m k with
    | some w => rfl
    | none => simp [lookupStr, hak]

/-- Folding dict assignments realizes last-occurrence-wins lookup. -/
theorem lookupStr_foldl_updateLast (ps : List (Str × Str)) (k : Str) :
    lookupStr (ps.foldl (fun m q => updateLast m q.1 q.2) []) k
      = ((ps.filter (fun p => decide (p.1 = k))).getLast?).map Prod.snd := by
  induction ps using List.reverseRecOn with
  | nil => rfl
  | append_singleton l p ih =>
    rw [List.foldl_append, List.foldl_cons, List.foldl_nil, List.filter_append]
    by_cases hp : p.1 = k
    · rw [← hp, lookupStr_updateLast_self]
      simp [hp, List.getLast?_concat]
    · rw [lookupStr_updateLast_ne _ _ _ _ hp, ih]
      simp [hp]

/-- C3 (amended): the loaded mapping keeps the last occurrence's value
for each key, and the listing mode displays exactly the loaded keys in
ascending lexicographic order (Python `sorted`), not in first-occurrence
insertion order. -/
theorem loadSecrets_lastWins_listing_sorted (lines : List Str) (k : Str) :
    lookupStr (loadSecrets lines) k
      = (((lines.filterMap parseLine).filter (fun p => decide (p.1 = k))).getLast?).map Prod.snd
    ∧ (listedKeys (loadSecrets lines)).Perm ((loadSecrets lines).map Prod.fst)
    ∧ List.Sorted (· ≤ ·) (listedKeys (loadSecrets lines)) := by
  refine ⟨lookupStr_foldl_updateLast _ k, ?_, ?_⟩
  · exact List.perm_insertionSort _ _
  · exact List.sorted_insertionSort _ _

/-- C3 counterexample: for the duplicate-key file `B=1`, `A=2`, `B=3` the
loaded mapping is `[(B, 3), (A, 2)]` — first-occurrence insertion order
`[B, A]` with the last value winning — but the listing displays `[A, B]`,
which differs from the insertion order of first occurrences. -/
theorem listing_order_not_insertion_order :
    loadSecrets ["B=1".toList, "A=2".toList, "B=3".toList]
        = [("B".toList, "3".toList), ("A".toList, "2".toList)]
    ∧ listedKeys (loadSecrets ["B=1".toList, "A=2".toList, "B=3".toList])
        = ["A".toList, "B".toList]
    ∧ ["A".toList, "B".toList] ≠ ["B".toList, "A".toList] := by
  refine ⟨by decide, by decide, by decide⟩

/-- C4 (amended): a value of length at most 20 is rendered entirely as
mask characters; a value longer than 20 characters that does not itself
contain the three-dot elision marker never appears in full inside its
masked rendering.  (A value that contains `...` can coincide with its own
mask — see the counterexample.) -/
theorem maskValue_spec (v : Str) :
    (20 < v.length → ¬ (['.', '.', '.'] <:+: v) → ¬ (v <:+: maskValue v))
    ∧ (v.length ≤ 20 → maskValue v = List.replicate v.length '*') := by
  constructor
  · intro hlen hdots hinf
    obtain ⟨s, t, hst⟩ := hinf
    have hmask : maskValue v = v.take 10 ++ ['.', '.', '.'] ++ v.drop (v.length - 10) := by
      simp [maskValue, hlen]
    have hmlen : (maskValue v).length = 23 := by
      rw [hmask]
      simp only [List.length_append, List.length_take, List.length_drop,
        List.length_cons, List.length_nil]
      omega
    have hslen : s.length ≤ 2 := by
      have hlc := congrArg List.length hst
      simp only [List.length_append] at hlc
      rw [hmlen] at hlc
      omega
    have hvt : (maskValue v).drop s.length = v ++ t := by
      rw [← hst, List.append_assoc, List.drop_left]
    have hv : ((maskValue v).drop s.length).take v.length = v := by
      rw [hvt, List.take_left]
    have h3 : (maskValue v).drop 10 = ['.', '.', '.'] ++ v.drop (v.length - 10) := by
      rw [hmask, List.append_assoc]
      exact List.drop_left' (by simp only [List.length_take]; omega)
    have h2 : v.drop (10 - s.length)
        = ((maskValue v).drop 10).take (v.length - (10 - s.length)) := by
      conv_lhs => rw [← hv]
      rw [List.drop_take, List.drop_drop]
      have hten : s.length + (10 - s.length) = 10 := by omega
      rw [hten]
    have h4 : v.drop (10 - s.length)
        = ['.', '.', '.'] ++ (v.drop (v.length - 10)).take (v.length - (10 - s.length) - 3) := by
      rw [h2, h3, List.take_append_eq_append_take,
        List.take_of_length_le (by simp only [List.length_cons, List.length_nil]; omega)]
      simp
    apply hdots
    refine ⟨v.take (10 - s.length),
      (v.drop (v.length - 10)).take (v.length - (10 - s.length) - 3), ?_⟩
    rw [List.append_assoc]
    exact (congrArg (fun z => v.take (10 - s.length) ++ z) h4.symm).trans
      (List.take_append_drop _ v)
  · intro hle
    rw [maskValue, if_neg (by omega)]

/-- Witness for C4's amended theorem: a 21-character dot-free value does
not occur in its mask, and a short value is fully starred out. -/
theorem maskValue_spec_witness :
    ¬ ("abcdefghijklmnopqrstu".toList <:+: maskValue "abcdefghijklmnopqrstu".toList)
    ∧ maskValue "shh".toList = List.replicate "shh".toList.length '*' :=
  ⟨(maskValue_spec "abcdefghijklmnopqrstu".toList).1 (by decide) (by decide),
   (maskValue_spec "shh".toList).2 (by decide)⟩

/-- C4 counterexample: the 23-character value `aaaaaaaaaa...aaaaaaaaaa`
is its own masked rendering, so the mask printed by listing mode contains
the full original value as a substring, contradicting the claim as
stated. -/
theorem maskValue_can_contain_value :
    20 < "aaaaaaaaaa...aaaaaaaaaa".toList.length
    ∧ "aaaaaaaaaa...aaaaaaaaaa".toList <:+: maskValue "aaaaaaaaaa...aaaaaaaaaa".toList := by
  constructor
  · decide
  · have h : maskValue "aaaaaaaaaa...aaaaaaaaaa".toList = "aaaaaaaaaa...aaaaaaaaaa".toList := by
      decide
    rw [h]

/-- C1 (amended): on an HTTP 200 response whose envelope has a true
success flag, probes 1 and 3–7 record a pass even when the result list is
empty, but the account-listing probe (probe 2) records a pass only when
at least one account is returned: a successful response with zero
accounts is recorded as a fail (`"No accounts accessible"`). -/
theorem empty_result_pass_except_accounts (env : Envelope) (h : env.success = true) :
    (testTokenVerification (.response 200 env) = true
      ∧ testWorkersList (.response 200 env) = true
      ∧ testD1Databases (.response 200 env) = true
      ∧ testKvNamespaces (.response 200 env) = true
      ∧ testAiModels (.response 200 env) = true
      ∧ testApiTokensList (.response 200 env) = true)
    ∧ (env.result = [] → testAccountAccess (.response 200 env) = false)
    ∧ (env.result ≠ [] → testAccountAccess (.response 200 env) = true) := by
  have hm : makeRequest (.response 200 env) = (true, env) := by
    simp [makeRequest, h]
  refine ⟨⟨?_, ?_, ?_, ?_, ?_, ?_⟩, ?_, ?_⟩
  · simp [testTokenVerification, hm]
  · simp [testWorkersList, hm]
  · simp [testD1Databases, hm]
  · simp [testKvNamespaces, hm]
  · simp [testAiModels, hm]
  · simp [testApiTokensList, hm]
  · intro hres
    simp [testAccountAccess, hm, hres]
  · intro hres
    cases hr : env.result with
    | nil => exact absurd hr hres
    | cons a l => simp [testAccountAccess, hm, hr]

/-- Witness for C1's amended theorem at concrete envelopes. -/
theorem empty_result_pass_except_accounts_witness :
    testWorkersList (.response 200 ⟨true, [], []⟩) = true
    ∧ testAccountAccess (.response 200 ⟨true, [], []⟩) = false
    ∧ testAccountAccess (.response 200 ⟨true, [], ["acme".toList]⟩) = true :=
  ⟨((empty_result_pass_except_accounts ⟨true, [], []⟩ rfl).1).2.1,
   (empty_result_pass_except_accounts ⟨true, [], []⟩ rfl).2.1 rfl,
   (empty_result_pass_except_accounts ⟨true, [], ["acme".toList]⟩ rfl).2.2 (by decide)⟩

/-- C1 counterexample: the account-listing probe classifies a successful
HTTP 200 envelope carrying zero accounts as a fail, not a pass as the
claim states. -/
theorem accounts_probe_fails_on_empty :
    testAccountAccess (.response 200 ⟨true, [], []⟩) = false := by decide

/-- C7: the battery records exactly seven results; each probe's recorded
classification depends only on that probe's own HTTP outcome (so earlier
failures cannot suppress later probes); and every probe-level error —
timeout, transport error, malformed JSON body, non-200 status, or a false
success flag — is classified as a fail for that probe, caught inside
`make_request` rather than escaping the battery. -/
theorem battery_all_seven_and_errors_fail (b b' : Probe → HttpOutcome) (p : Probe)
    (o : HttpOutcome) :
    (runAllTests b).length = 7
    ∧ (b p = b' p → (runAllTests b)[probeIdx p]? = (runAllTests b')[probeIdx p]?)
    ∧ (isErrorOutcome o → probeClassify p o = false) := by
  refine ⟨rfl, ?_, ?_⟩
  · intro h
    cases p <;> simp [runAllTests, probeIdx, h]
  · intro he
    have hm : (makeRequest o).1 = false := by
      cases o with
      | response st env =>
        rcases he with h200 | hsucc
        · simp [makeRequest, h200]
        · by_cases hst : st = 200 <;> simp [makeRequest, hst, hsucc]
      | timedOut => rfl
      | transportError => rfl
      | invalidJson => rfl
    have hacc : testAccountAccess o = false := by
      unfold testAccountAccess
      cases hmr : makeRequest o with
      | mk fst snd =>
        rw [hmr] at hm
        simp at hm
        simp [hm]
    cases p <;>
      simp [probeClassify, testTokenVerification, testWorkersList, testD1Databases,
        testKvNamespaces, testAiModels, testApiTokensList, hm, hacc]

/-- Witness for C7 at a concrete backend and outcome. -/
theorem battery_all_seven_and_errors_fail_witness :
    (runAllTests (fun _ => .timedOut)).length = 7
    ∧ (runAllTests (fun _ => .timedOut))[probeIdx .accounts]?
        = (runAllTests (fun _ => .timedOut))[probeIdx .accounts]?
    ∧ probeClassify .accounts .timedOut = false :=
  ⟨(battery_all_seven_and_errors_fail (fun _ => .timedOut) (fun _ => .timedOut)
      .accounts .timedOut).1,
   (battery_all_seven_and_errors_fail (fun _ => .timedOut) (fun _ => .timedOut)
      .accounts .timedOut).2.1 rfl,
   (battery_all_seven_and_errors_fail (fun _ => .timedOut) (fun _ => .timedOut)
      .accounts .timedOut).2.2 trivial⟩

/-- C9: the probe battery is a deterministic function of the per-probe
HTTP responses — two runs (each on a fresh tester, as `main` constructs
one per pass) whose backends answer every probe identically record
identical pass/fail classification lists. -/
theorem battery_deterministic (b₁ b₂ : Probe → HttpOutcome)
    (h : ∀ p, b₁ p = b₂ p) : runAllTests b₁ = runAllTests b₂ := by
  simp [runAllTests, h .verification, h .accounts, h .workers, h .d1, h .kv,
    h .ai, h .tokens]

/-- Witness for C9 at a concrete backend. -/
theorem battery_deterministic_witness :
    runAllTests (fun _ => .timedOut) = runAllTests (fun _ => .timedOut) :=
  battery_deterministic (fun _ => .timedOut) (fun _ => .timedOut) (fun _ => rfl)

/-- The `needs_healing` flag is set exactly when the INITIAL phase
recorded at least one failure. -/
theorem needsHealing_iff (env : List (Str × Str)) (w : TokenWorld) :
    needsHealingOf env w = true ↔ 0 < initialFailedOf env w := by
  simp only [needsHealingOf, initialFailedOf, Bool.or_eq_true, decide_eq_true_eq]
  omega

/-- C5: once the startup guards pass (truthy account id, at least one
truthy token), the token tester exits 0 with no heal POST when the
INITIAL phase has no failures; with INITIAL failures and a missing worker
URL or client auth token it exits 1 with no heal POST; and when healing
is attempted and succeeds, the exit status is 0 iff the RETEST failure
count is zero (and a POST was issued). -/
theorem tokenTester_exit_spec (env : List (Str × Str)) (w : TokenWorld)
    (hid : pyTruthy (accountIdOf env) = true)
    (htok : pyTruthy (accountTokenOf env) = true ∨ pyTruthy (userTokenOf env) = true) :
    (initialFailedOf env w = 0 → mainTokenTester env w = (0, false))
    ∧ (0 < initialFailedOf env w →
        (pyTruthy (workerUrlOf env) = false ∨ pyTruthy (clientAuthOf env) = false) →
        mainTokenTester env w = (1, false))
    ∧ (0 < initialFailedOf env w → pyTruthy (workerUrlOf env) = true →
        pyTruthy (clientAuthOf env) = true → triggerSelfHeal w.heal = true →
        mainTokenTester env w = (if retestFailedOf env w = 0 then 0 else 1, true)) := by
  have htok2 : ¬ (pyTruthy (accountTokenOf env) = false ∧ pyTruthy (userTokenOf env) = false) := by
    rcases htok with h | h <;> simp [h]
  refine ⟨?_, ?_, ?_⟩
  · intro h0
    have hnh : ¬ (needsHealingOf env w = true ∧ 0 < initialFailedOf env w) := by
      rintro ⟨_, hf⟩
      omega
    simp [mainTokenTester, hid, htok2, hnh]
  · intro hf hmiss
    have hcond : needsHealingOf env w = true ∧ 0 < initialFailedOf env w :=
      ⟨(needsHealing_iff env w).2 hf, hf⟩
    rcases hmiss with hw | hc
    · simp [mainTokenTester, hid, htok2, hcond, hw, hf]
    · cases hw : pyTruthy (workerUrlOf env) with
      | false => simp [mainTokenTester, hid, htok2, hcond, hw, hf]
      | true => simp [mainTokenTester, hid, htok2, hcond, hw, hc, hf]
  · intro hf hw hc hheal
    have hcond : needsHealingOf env w = true ∧ 0 < initialFailedOf env w :=
      ⟨(needsHealing_iff env w).2 hf, hf⟩
    simp [mainTokenTester, hid, htok2, hcond, hw, hc, hheal]

/-- A `.dev.vars` mapping with an account id and an account token but no
worker URL and no client auth token. -/
def demoEnv : List (Str × Str) :=
  [("CLOUDFLARE_ACCOUNT_ID".toList, "acct".toList),
   ("CLOUDFLARE_ACCOUNT_TOKEN".toList, "tok".toList)]

/-- A world in which every probe request times out and the heal endpoint
would time out as well. -/
def demoWorld : TokenWorld :=
  { initAccount := fun _ => .timedOut
    initUser := fun _ => .timedOut
    heal := .timedOut
    retestAccount := fun _ => .timedOut
    retestUser := fun _ => .timedOut }

/-- Witness for C5: with INITIAL failures and no worker URL configured,
the process exits 1 without issuing any heal POST. -/
theorem tokenTester_exit_spec_witness : mainTokenTester demoEnv demoWorld = (1, false) :=
  (tokenTester_exit_spec demoEnv demoWorld (by decide) (Or.inl (by decide))).2.1
    (by decide) (Or.inl (by decide))

/-- Counting lemma for the `sync_to_environment` fold, generalized over
the accumulator. -/
theorem syncFold_counts (m : List (Str × Str)) (cli : Str → CliOutcome)
    (ks : List Str) (a b : Nat) :
    ks.foldl
      (fun acc k =>
        match lookupStr m k with
        | none => acc
        | some _ => if uploadSecret (cli k) then (acc.1 + 1, acc.2) else (acc.1, acc.2 + 1))
      (a, b)
    = (a + ks.countP (fun k => (lookupStr m k).isSome && uploadSecret (cli k)),
       b + ks.countP (fun k => (lookupStr m k).isSome && !uploadSecret (cli k))) := by
  induction ks generalizing a b with
  | nil => simp
  | cons k ks ih =>
    simp only [List.foldl_cons, List.countP_cons]
    cases hl : lookupStr m k with
    | none =>
      rw [ih]
      simp [hl]
    | some v =>
      cases hu : uploadSecret (cli k) with
      | false =>
        rw [ih]
        simp only [hl, Option.isSome_some, Bool.true_and, hu, Bool.not_false,
          Bool.false_eq_true, if_false, if_true, Prod.mk.injEq]
        constructor <;> omega
      | true =>
        rw [ih]
        simp only [hl, Option.isSome_some, Bool.true_and, hu, Bool.not_true,
          Bool.false_eq_true, if_false, if_true, Prod.mk.injEq]
        constructor <;> omega

/-- C6: in `sync_to_environment`, the success counter counts exactly the
selected present keys whose CLI attempt both exited with status zero and
produced the `Success` marker, the failure counter counts exactly the
selected present keys whose attempt did not (non-zero exit, missing
marker, timeout, or any other exception), every selected key is processed
(the two counters partition the present keys), and `upload_secret`
succeeds precisely on a zero-exit completion whose captured stdout
contains the marker. -/
theorem syncToEnvironment_counts (m : List (Str × Str)) (keys? : Option (List Str))
    (cli : Str → CliOutcome) :
    (syncToEnvironment m keys? cli).1
      = (keysToSync m keys?).countP (fun k => (lookupStr m k).isSome && uploadSecret (cli k))
    ∧ (syncToEnvironment m keys? cli).2
      = (keysToSync m keys?).countP (fun k => (lookupStr m k).isSome && !uploadSecret (cli k))
    ∧ (∀ o, uploadSecret o = true ↔
        ∃ code out err, o = CliOutcome.completed code out err
          ∧ code = 0 ∧ successMarker <:+: out) := by
  refine ⟨?_, ?_, ?_⟩
  · rw [syncToEnvironment, syncFold_counts]
    simp
  · rw [syncToEnvironment, syncFold_counts]
    simp
  · intro o
    cases o with
    | completed code out err =>
      simp only [uploadSecret, Bool.and_eq_true, beq_iff_eq, decide_eq_true_eq]
      constructor
      · rintro ⟨h0, hmark⟩
        exact ⟨code, out, err, rfl, h0, hmark⟩
      · rintro ⟨c, o', e', heq, h0, hmark⟩
        injection heq with h1 h2 h3
        subst h1
        subst h2
        exact ⟨h0, hmark⟩
    | timedOut =>
      simp only [uploadSecret, Bool.false_eq_true, false_iff]
      rintro ⟨c, o', e', heq, -, -⟩
      exact absurd heq (by simp)
    | raised =>
      simp only [uploadSecret, Bool.false_eq_true, false_iff]
      rintro ⟨c, o', e', heq, -, -⟩
      exact absurd heq (by simp)

/-- C10: when every caller-selected key is absent from the loaded
mapping, each selected key is skipped with a warning and neither counter
moves, so the whole run performs zero successful uploads, reports a grand
failure total of zero, and `main` exits with status 0 as if fully
successful. -/
theorem absent_keys_sync_exits_zero (lines : List Str) (envs ks : List Str)
    (cli : Str → Str → CliOutcome)
    (hload : loadSecrets lines ≠ [])
    (henvs : envs ≠ [])
    (hks : ks ≠ [])
    (habsent : ∀ k ∈ ks, lookupStr (loadSecrets lines) k = none) :
    syncAllEnvironments (loadSecrets lines) envs (some ks) cli = (0, 0)
    ∧ manageSecretsMain lines false false (some envs) (some ks) cli = 0 := by
  obtain ⟨k₀, ks', rfl⟩ : ∃ k₀ ks', ks = k₀ :: ks' := by
    cases ks with
    | nil => exact absurd rfl hks
    | cons a l => exact ⟨a, l, rfl⟩
  obtain ⟨e₀, es', rfl⟩ : ∃ e₀ es', envs = e₀ :: es' := by
    cases envs with
    | nil => exact absurd rfl henvs
    | cons a l => exact ⟨a, l, rfl⟩
  have hsync : ∀ cliE : Str → CliOutcome,
      syncToEnvironment (loadSecrets lines) (some (k₀ :: ks')) cliE = (0, 0) := by
    intro cliE
    rw [syncToEnvironment, syncFold_counts]
    simp only [keysToSync]
    have h1 : (k₀ :: ks').countP
        (fun k => (lookupStr (loadSecrets lines) k).isSome && uploadSecret (cliE k)) = 0 :=
      List.countP_eq_zero.2 (fun k hk => by simp [habsent k hk])
    have h2 : (k₀ :: ks').countP
        (fun k => (lookupStr (loadSecrets lines) k).isSome && !uploadSecret (cliE k)) = 0 :=
      List.countP_eq_zero.2 (fun k hk => by simp [habsent k hk])
    simp [h1, h2]
  have hall : ∀ (es : List Str) (a b : Nat),
      es.foldl
        (fun acc e =>
          let r := syncToEnvironment (loadSecrets lines) (some (k₀ :: ks')) (cli e)
          (acc.1 + r.1, acc.2 + r.2))
        (a, b) = (a, b) := by
    intro es
    induction es with
    | nil => intro a b; rfl
    | cons e es ih =>
      intro a b
      rw [List.foldl_cons]
      simp only [hsync (cli e)]
      exact ih a b
  have hagg : syncAllEnvironments (loadSecrets lines) (e₀ :: es') (some (k₀ :: ks')) cli
      = (0, 0) := hall (e₀ :: es') 0 0
  refine ⟨hagg, ?_⟩
  rw [manageSecretsMain]
  simp only [if_neg hload, Bool.false_eq_true, if_false]
  rw [hagg]
  rfl

/-- Witness for C10 at a concrete run. -/
theorem absent_keys_sync_exits_zero_witness :
    syncAllEnvironments (loadSecrets ["A=b".toList]) ["default".toList]
        (some ["X".toList]) (fun _ _ => .timedOut) = (0, 0)
    ∧ manageSecretsMain ["A=b".toList] false false (some ["default".toList])
        (some ["X".toList]) (fun _ _ => .timedOut) = 0 :=
  absent_keys_sync_exits_zero ["A=b".toList] ["default".toList] ["X".toList]
    (fun _ _ => .timedOut) (by decide) (by decide) (by decide) (by decide)

/-- Exhaustive description of `mainExtract`: either some stage failed and
the run exits 1 with no file, or every stage succeeded and the written
file is built by `save_comments_to_file` from the fetched comments. -/
theorem mainExtract_cases (w : GhWorld) :
    mainExtract w = (1, none)
    ∨ ∃ cs pr, extractPrComments w.commentsOut = some cs
        ∧ getOpenPr w.remoteUrl w.prList = some pr
        ∧ mainExtract w = (0, some (saveCommentsToFile cs pr)) := by
  rw [mainExtract]
  split
  · left; rfl
  · split
    · left; rfl
    · split
      · left; rfl
      · split
        · left; rfl
        · split
          · right
            refine ⟨_, _, ?_, ?_, rfl⟩ <;> assumption
          · left; rfl

/-- C8: if the paginated comment fetch fails, the extractor's process
exits with status 1 and no report file is created; conversely a report
file is produced only on the success path, with contents built from the
fully retrieved comment list. -/
theorem extractor_no_partial_report (w : GhWorld) :
    (w.commentsOut = none → mainExtract w = (1, none))
    ∧ (∀ fc, (mainExtract w).2 = some fc →
        (mainExtract w).1 = 0
        ∧ ∃ cs pr, extractPrComments w.commentsOut = some cs
            ∧ getOpenPr w.remoteUrl w.prList = some pr
            ∧ fc = saveCommentsToFile cs pr) := by
  rcases mainExtract_cases w with h | ⟨cs, pr, hcs, hpr, h⟩
  · constructor
    · intro _
      exact h
    · intro fc hfc
      rw [h] at hfc
      exact absurd hfc (by simp)
  · constructor
    · intro hnone
      rw [hnone] at hcs
      exact absurd hcs (by simp [extractPrComments])
    · intro fc hfc
      rw [h] at hfc
      simp only [Option.some.injEq] at hfc
      exact ⟨by rw [h], cs, pr, hcs, hpr, hfc.symm⟩

/-- A world in which everything works except the paginated comment
fetch. -/
def ghFailWorld : GhWorld :=
  { ghVersion := some "gh version 2.0.0".toList
    remoteUrl := some "https://github.com/o/r.git".toList
    prList := some [⟨7, "title".toList, "branch".toList⟩]
    commentsOut := none
    saveOk := true }

/-- Witness for C8: with a failing comment fetch the extractor exits 1
and writes nothing. -/
theorem extractor_no_partial_report_witness : mainExtract ghFailWorld = (1, none) :=
  (extractor_no_partial_report ghFailWorld).1 rfl

/-- Witness for C3's theorem at a concrete file and key. -/
theorem loadSecrets_lastWins_listing_sorted_witness :
    lookupStr (loadSecrets ["B=1".toList, "B=3".toList]) "B".toList
      = ((((["B=1".toList, "B=3".toList]).filterMap parseLine).filter
          (fun p => decide (p.1 = "B".toList))).getLast?).map Prod.snd :=
  (loadSecrets_lastWins_listing_sorted ["B=1".toList, "B=3".toList] "B".toList).1

/-- Witness for C6's theorem at a concrete mapping and CLI world. -/
theorem syncToEnvironment_counts_witness :
    (syncToEnvironment [("A".toList, "b".toList)] none (fun _ => .timedOut)).2
      = (keysToSync [("A".toList, "b".toList)] none).countP
          (fun k => (lookupStr [("A".toList, "b".toList)] k).isSome
            && !uploadSecret ((fun _ => CliOutcome.timedOut) k)) :=
  (syncToEnvironment_counts [("A".toList, "b".toList)] none (fun _ => .timedOut)).2.1
